import Mathlib

/-!
# Verification of the MediaCrawler yearly-statistics scripts

A shallow embedding of the data-aggregation core of `src/data/statistics.py`
and `src/data/statistics_only_weibo.py`:

* JSON values as decoded by Python's `json` module (`JsonVal`);
* the douyin (video) yearly aggregation `process_data`;
* the two weibo (microblog) yearly aggregations: the basic one from
  `statistics.py` (post counts only, catching only `json.JSONDecodeError`)
  and the extended one from `statistics_only_weibo.py` (post counts and
  reads, catching every exception);
* the CSV row production of `save_to_csv`;
* the IP-location extraction `extract_ip_locations_and_plot_map` up to the
  region counter (the rendering sink is outside the model).

Modelling conventions: Python dicts built by the scripts become association
lists that append new keys at the end (Python dicts preserve insertion
order); uncaught exceptions become `Except Unit`; non-integral JSON numbers
and non-ASCII digit characters are outside the model; JSON arrays/objects
are abstracted to their truthiness, the only attribute of them the scripts
inspect.
-/

/-- A JSON value as decoded by Python's `json` module.  `vComposite`
abstracts arrays and objects to their truthiness (emptiness), the only
thing the modelled code ever asks of them.  Non-integral numbers are
outside the model. -/
inductive JsonVal : Type
  | vNull : JsonVal
  | vBool (b : Bool) : JsonVal
  | vInt (n : Int) : JsonVal
  | vStr (s : String) : JsonVal
  | vComposite (nonempty : Bool) : JsonVal
deriving DecidableEq, Repr

/-- Python truthiness of a decoded JSON value (`bool(v)`). -/
def pyTruthy : JsonVal → Bool
  | .vNull => false
  | .vBool b => b
  | .vInt n => n != 0
  | .vStr s => !s.isEmpty
  | .vComposite ne => ne

/-- Numeric value of an ASCII digit character. -/
def digitVal (c : Char) : Nat := c.toNat - 48

/-- Value of a nonempty ASCII digit string, most significant digit first. -/
def natOfDigits (cs : List Char) : Nat := cs.foldl (fun a c => 10 * a + digitVal c) 0

/-- The whitespace characters of Python's `str.strip` / regex `\s`
(ASCII fragment). -/
def isPySpace (c : Char) : Bool :=
  c == ' ' || c == '\t' || c == '\n' || c == '\r' || c == '\x0b' || c == '\x0c'

/-- Python `int(s)` on a string: optional surrounding whitespace, an
optional sign, then one or more digits.  (Numeric-literal underscores and
non-ASCII digits are outside the model.)  `none` models the `ValueError`
raised on any other string. -/
def pyIntOfString (s : String) : Option Int :=
  let cs := ((s.toList.dropWhile isPySpace).reverse.dropWhile isPySpace).reverse
  match cs with
  | '+' :: rest =>
      if rest ≠ [] ∧ rest.all Char.isDigit then some (natOfDigits rest) else none
  | '-' :: rest =>
      if rest ≠ [] ∧ rest.all Char.isDigit then some (-(natOfDigits rest : Int)) else none
  | rest =>
      if rest ≠ [] ∧ rest.all Char.isDigit then some (natOfDigits rest) else none

/-- Python `int(v)` on a decoded JSON value.  `bool` is a subclass of
`int` in Python, so booleans coerce to `0` / `1`.  `none` models the
`TypeError`/`ValueError` raised when the value is not coercible. -/
def pyIntCoerce : JsonVal → Option Int
  | .vInt n => some n
  | .vBool b => some (if b then 1 else 0)
  | .vStr s => pyIntOfString s
  | _ => none

/-- Python `s.isdigit()` restricted to ASCII: nonempty and all digits. -/
def pyIsDigit (s : String) : Bool := !s.isEmpty && s.toList.all Char.isDigit

/-- Python `s.replace(',', '')`: remove every comma. -/
def stripCommas (s : String) : String := String.mk (s.toList.filter (fun c => c ≠ ','))

/-! ## Date parsing

`datetime.strptime(date_str, "%Y-%m-%d %H:%M:%S")` followed by the
`datetime` constructor's range checks, at the granularity the scripts can
observe (success with a given year, or an exception).  CPython's
`_strptime` compiles `%Y` to exactly four digits, `%m`/`%d`/`%H`/`%M`/`%S`
to one or two digits, and a whitespace run in the format to `\s+`; the
whole string must be consumed; the `datetime` constructor then enforces
calendar validity (`MINYEAR = 1`, day within month, …).  Inputs on which
the regex and the constructor disagree only about *which* error is raised
(e.g. second `61`, day `30` of February) are failures either way, which is
all the callers distinguish. -/

/-- Parse exactly four ASCII digits (`%Y`). -/
def parse4 : List Char → Option (Nat × List Char)
  | a :: b :: c :: d :: rest =>
      if a.isDigit && b.isDigit && c.isDigit && d.isDigit then
        some (1000 * digitVal a + 100 * digitVal b + 10 * digitVal c + digitVal d, rest)
      else none
  | _ => none

/-- Parse one or two ASCII digits, preferring two (`%m`, `%d`, `%H`, `%M`, `%S`). -/
def parse2or1 : List Char → Option (Nat × List Char)
  | a :: b :: rest =>
      if a.isDigit then
        if b.isDigit then some (10 * digitVal a + digitVal b, rest)
        else some (digitVal a, b :: rest)
      else none
  | [a] => if a.isDigit then some (digitVal a, []) else none
  | [] => none

/-- Expect one literal character. -/
def expectChar (c : Char) : List Char → Option (List Char)
  | x :: rest => if x == c then some rest else none
  | [] => none

/-- Expect a nonempty whitespace run (a literal space in a `strptime`
format matches `\s+`). -/
def expectSpaces : List Char → Option (List Char)
  | x :: rest => if isPySpace x then some (rest.dropWhile isPySpace) else none
  | [] => none

/-- Days in a month of the proleptic Gregorian calendar. -/
def daysInMonth (y m : Nat) : Nat :=
  if m == 2 then (if (y % 4 == 0 && y % 100 != 0) || y % 400 == 0 then 29 else 28)
  else if m == 4 || m == 6 || m == 9 || m == 11 then 30 else 31

/-- The year `datetime.strptime(s, "%Y-%m-%d %H:%M:%S").year`, or `none` for the
`ValueError`/`TypeError` the call would raise. -/
def parseWeiboDate (s : String) : Option Int := do
  let cs := s.toList
  let (y, r1) ← parse4 cs
  let r2 ← expectChar '-' r1
  let (mo, r3) ← parse2or1 r2
  let r4 ← expectChar '-' r3
  let (d, r5) ← parse2or1 r4
  let r6 ← expectSpaces r5
  let (h, r7) ← parse2or1 r6
  let r8 ← expectChar ':' r7
  let (mi, r9) ← parse2or1 r8
  let r10 ← expectChar ':' r9
  let (sec, r11) ← parse2or1 r10
  if r11 = [] ∧ 1 ≤ y ∧ 1 ≤ mo ∧ mo ≤ 12 ∧ 1 ≤ d ∧ d ≤ daysInMonth y mo
      ∧ h ≤ 23 ∧ mi ≤ 59 ∧ sec ≤ 59 then
    some (Int.ofNat y)
  else none

/-- Calendar year of a Unix timestamp in seconds
(`datetime.fromtimestamp(t).year`), via the standard civil-from-days
computation.  The source uses the local timezone; the model fixes UTC — no
claim below depends on the fixed offset. -/
def yearFromEpoch (t : Int) : Int :=
  let z : Int := Int.fdiv t 86400 + 719468
  let era : Int := Int.fdiv z 146097
  let doe : Int := z - era * 146097
  let yoe : Int := Int.fdiv (doe - Int.fdiv doe 1460 + Int.fdiv doe 36524 - Int.fdiv doe 146096) 365
  let y : Int := yoe + era * 400
  let doy : Int := doe - (365 * yoe + Int.fdiv yoe 4 - Int.fdiv yoe 100)
  let mp : Int := Int.fdiv (5 * doy + 2) 153
  let m : Int := if mp < 10 then mp + 3 else mp - 9
  if m ≤ 2 then y + 1 else y

/-! ## Records and dictionaries -/

/-- One decoded douyin record, restricted to the fields `process_data`
reads.  `none` means the key is absent from the JSON object. -/
structure VideoRecord where
  create_time : Option JsonVal
  liked_count : Option JsonVal
  collected_count : Option JsonVal
  comment_count : Option JsonVal
  share_count : Option JsonVal
deriving DecidableEq, Repr

/-- One decoded weibo record, restricted to the fields the weibo passes
read. -/
structure WeiboRecord where
  created_at : Option JsonVal
  reads_count : Option JsonVal
  ip_location : Option JsonVal
deriving DecidableEq, Repr

/-- One line of a weibo JSONL file: either malformed JSON
(`json.JSONDecodeError`) or a decoded record.  Lines holding valid JSON
that is not an object are outside the model. -/
inductive WeiboLine : Type
  | malformed : WeiboLine
  | record (r : WeiboRecord) : WeiboLine
deriving DecidableEq, Repr

/-- Lookup in an insertion-ordered association list (a Python dict). -/
def alookup {κ α : Type} [DecidableEq κ] : List (κ × α) → κ → Option α
  | [], _ => none
  | (k, v) :: t, q => if q = k then some v else alookup t q

/-- The dict mutation pattern `if q not in t: t[q] = d` followed by
`t[q] = f t[q]`: update in place, or append the new key at the end
(Python dicts preserve insertion order). -/
def aupdate {κ α : Type} [DecidableEq κ] (t : List (κ × α)) (q : κ) (d : α) (f : α → α) :
    List (κ × α) :=
  match t with
  | [] => [(q, f d)]
  | (k, v) :: rest => if q = k then (k, f v) :: rest else (k, v) :: aupdate rest q d f

/-! ## Douyin aggregation (`statistics.process_data`) -/

/-- The per-year accumulator of `process_data`. -/
structure VStats where
  post_count : Nat
  total_likes : Int
  total_collections : Int
  total_comments : Int
  total_shares : Int
deriving DecidableEq, Repr

/-- The fresh accumulator installed for a year not yet in the dict. -/
def VStats.zero : VStats := ⟨0, 0, 0, 0, 0⟩

/-- Python `int(item.get(field, 0))`: default an absent field to `0`, then
coerce; `none` is the uncaught coercion error. -/
def engagementVal (f : Option JsonVal) : Option Int := pyIntCoerce (f.getD (.vInt 0))

/-- The year `datetime.fromtimestamp(item['create_time']).year`: `KeyError` on a
missing key, `TypeError` on a non-numeric value (a boolean is an `int` in
Python); `fromtimestamp`'s platform range limits are outside the model. -/
def videoYear : Option JsonVal → Except Unit Int
  | none => .error ()
  | some (.vInt n) => .ok (yearFromEpoch n)
  | some (.vBool b) => .ok (yearFromEpoch (if b then 1 else 0))
  | some _ => .error ()

/-- Folding one douyin record into the per-year dict, reading the fields
in source order.  The source mutates the dict field by field; an exception
anywhere discards the whole pass, so the atomic model is observationally
faithful. -/
def videoStep (t : List (Int × VStats)) (item : VideoRecord) :
    Except Unit (List (Int × VStats)) :=
  match videoYear item.create_time with
  | .error e => .error e
  | .ok year =>
    match engagementVal item.liked_count with
    | none => .error ()
    | some likes =>
      match engagementVal item.collected_count with
      | none => .error ()
      | some collections =>
        match engagementVal item.comment_count with
        | none => .error ()
        | some comments =>
          match engagementVal item.share_count with
          | none => .error ()
          | some shares =>
            .ok (aupdate t year VStats.zero (fun s =>
              { post_count := s.post_count + 1,
                total_likes := s.total_likes + likes,
                total_collections := s.total_collections + collections,
                total_comments := s.total_comments + comments,
                total_shares := s.total_shares + shares }))

/-- The fold `statistics.process_data`: fold all records; the first uncaught
exception aborts the pass. -/
def process_data (data : List VideoRecord) : Except Unit (List (Int × VStats)) :=
  data.foldl (fun acc item => acc.bind (fun t => videoStep t item)) (.ok [])

/-! ## Weibo aggregations -/

/-- Python `record.get('created_at', '')`. -/
def createdVal (r : WeiboRecord) : JsonVal := r.created_at.getD (.vStr "")

/-- The per-year accumulator of `statistics_only_weibo.process_weibo_jsonl`. -/
structure WStats where
  post_count : Nat
  reads_count : Int
deriving DecidableEq, Repr

/-- The `reads_count` normalisation of `statistics_only_weibo.process_weibo_jsonl`:
absent defaults to `3000`; a string has its commas stripped and parses
when the remainder is all digits, else `0`; a value that is neither an
`int` nor a string is `0` (a boolean is an `int` in Python and passes
through `int`-wise). -/
def readsVal : Option JsonVal → Int
  | none => 3000
  | some (.vStr s) =>
      let u := stripCommas s
      if pyIsDigit u then (natOfDigits u.toList : Int) else 0
  | some (.vInt n) => n
  | some (.vBool b) => if b then 1 else 0
  | some _ => 0

/-- One line of `statistics_only_weibo.process_weibo_jsonl`: the broad
`except Exception` turns every failure (bad JSON, falsy date, unparseable
or non-string date) into a silent skip. -/
def weiboExtStep (t : List (Int × WStats)) (ln : WeiboLine) : List (Int × WStats) :=
  match ln with
  | .malformed => t
  | .record r =>
      if pyTruthy (createdVal r) then
        match createdVal r with
        | .vStr s =>
            match parseWeiboDate s with
            | some year =>
                aupdate t year ⟨0, 0⟩ (fun s0 =>
                  ⟨s0.post_count + 1, s0.reads_count + readsVal r.reads_count⟩)
            | none => t
        | _ => t
      else t

/-- The fold `statistics_only_weibo.process_weibo_jsonl`: a total fold over the
lines of the file. -/
def process_weibo_jsonl (l : List WeiboLine) : List (Int × WStats) :=
  l.foldl weiboExtStep []

/-- One line of `statistics.process_weibo_jsonl`: only
`json.JSONDecodeError` is caught, so a truthy `created_at` that is not a
string parsing in the exact `strptime` format raises an uncaught
`ValueError`/`TypeError`, aborting the pass. -/
def weiboBasicStep (t : List (Int × Nat)) (ln : WeiboLine) : Except Unit (List (Int × Nat)) :=
  match ln with
  | .malformed => .ok t
  | .record r =>
      if pyTruthy (createdVal r) then
        match createdVal r with
        | .vStr s =>
            match parseWeiboDate s with
            | some year => .ok (aupdate t year 0 (fun n => n + 1))
            | none => .error ()
        | _ => .error ()
      else .ok t

/-- The fold `statistics.process_weibo_jsonl` (post counts only). -/
def process_weibo_jsonl_basic (l : List WeiboLine) : Except Unit (List (Int × Nat)) :=
  l.foldl (fun acc ln => acc.bind (fun t => weiboBasicStep t ln)) (.ok [])

/-! ## CSV output (`statistics.save_to_csv`) -/

/-- The header row `save_to_csv` writes. -/
def videoCsvHeader : List String :=
  ["Year", "Post Count", "Total Likes", "Total Collections", "Total Comments", "Total Shares"]

/-- The data row for one year: `stats[year]` rendered cell by cell.  The
`none` branch is unreachable in `save_to_csv`, whose keys come from the
dict itself. -/
def csvRow (t : List (Int × VStats)) (year : Int) : List String :=
  match alookup t year with
  | some d => [toString year, toString d.post_count, toString d.total_likes,
               toString d.total_collections, toString d.total_comments, toString d.total_shares]
  | none => []

/-- The rows `save_to_csv` writes: the header, then one row per key of
the dict in ascending key order (`for year in sorted(stats.keys())`). -/
def save_to_csv (t : List (Int × VStats)) : List (List String) :=
  videoCsvHeader :: ((t.map Prod.fst).insertionSort (fun a b => a ≤ b)).map (csvRow t)

/-! ## Region taxonomy and IP-location extraction -/

/-- The fixed membership set of recognised short region names. -/
def CHINA_PROVINCES : List String :=
  ["北京", "天津", "上海", "重庆",
   "河北", "山西", "辽宁", "吉林", "黑龙江",
   "江苏", "浙江", "安徽", "福建", "江西", "山东",
   "河南", "湖北", "湖南", "广东", "海南",
   "四川", "贵州", "云南", "陕西", "甘肃", "青海",
   "内蒙古", "广西", "西藏", "宁夏", "新疆",
   "中国香港", "中国澳门", "中国台湾"]

/-- The fixed short-name → display-name table, entry for entry as in the
source (note `河南` maps to `河南`, with no administrative suffix). -/
def CHINA_PROVINCES_MAP : List (String × String) :=
  [("北京", "北京市"), ("天津", "天津市"), ("上海", "上海市"), ("重庆", "重庆市"),
   ("河北", "河北省"), ("山西", "山西省"), ("辽宁", "辽宁省"), ("吉林", "吉林省"),
   ("黑龙江", "黑龙江省"),
   ("江苏", "江苏省"), ("浙江", "浙江省"), ("安徽", "安徽省"), ("福建", "福建省"),
   ("江西", "江西省"), ("山东", "山东省"),
   ("河南", "河南"), ("湖北", "湖北省"), ("湖南", "湖南省"), ("广东", "广东省"),
   ("海南", "海南省"),
   ("四川", "四川省"), ("贵州", "贵州省"), ("云南", "云南省"), ("陕西", "陕西省"),
   ("甘肃", "甘肃省"), ("青海", "青海省"),
   ("内蒙古", "内蒙古自治区"), ("广西", "广西壮族自治区"), ("西藏", "西藏自治区"),
   ("宁夏", "宁夏回族自治区"), ("新疆", "新疆维吾尔自治区"),
   ("中国香港", "香港特别行政区"), ("中国澳门", "澳门特别行政区"), ("中国台湾", "台湾省")]

/-- The 34 canonical display names (the values of `CHINA_PROVINCES_MAP`). -/
def canonicalRegionNames : List String := CHINA_PROVINCES_MAP.map Prod.snd

/-- The literal marker of the regex `发布于\s*(\S+)`. -/
def ipMarker : List Char := ['发', '布', '于']

/-- Does `p` start the character list `cs`? -/
def startsWithChars : List Char → List Char → Bool
  | [], _ => true
  | _ :: _, [] => false
  | p :: ps, c :: cs => p == c && startsWithChars ps cs

/-- One attempted match of `发布于\s*(\S+)` anchored at the head of `cs`:
the literal marker, optional whitespace, then a nonempty maximal run of
non-whitespace characters (the capture group). -/
def ipMatchAt (cs : List Char) : Option (List Char) :=
  if startsWithChars ipMarker cs then
    let rest := (cs.drop ipMarker.length).dropWhile isPySpace
    let tok := rest.takeWhile (fun c => !isPySpace c)
    if tok = [] then none else some tok
  else none

/-- Model of `re.search(r'发布于\s*(\S+)', s)`: try each start position left to
right and return the first successful capture. -/
def searchCapture : List Char → Option (List Char)
  | [] => none
  | c :: cs =>
      match ipMatchAt (c :: cs) with
      | some tok => some tok
      | none => searchCapture cs

/-- One line of `extract_ip_locations_and_plot_map`, up to the region
counter (the rendering sink is outside the model): read `ip_location`
(default `''`), require a string, search for the marker regex, and when
the captured token is a recognised short name bump the Counter at the
canonical display name (`Counter` defaults a missing key to `0`). -/
def ipStep (c : List (String × Nat)) (ln : WeiboLine) : List (String × Nat) :=
  match ln with
  | .malformed => c
  | .record r =>
      match r.ip_location.getD (.vStr "") with
      | .vStr s =>
          match searchCapture s.toList with
          | some tok =>
              let province := String.mk tok
              if province ∈ CHINA_PROVINCES then
                aupdate c ((alookup CHINA_PROVINCES_MAP province).getD "") 0 (fun n => n + 1)
              else c
          | none => c
      | _ => c

/-- The region counter built by `extract_ip_locations_and_plot_map`. -/
def extract_ip_locations (l : List WeiboLine) : List (String × Nat) :=
  l.foldl ipStep []

/-! ## Derived views used in the statements and proofs -/

/-- The year one line contributes in the extended weibo pass, `none` when
the pass skips the line. -/
def lineYear : WeiboLine → Option Int
  | .malformed => none
  | .record r =>
      if pyTruthy (createdVal r) then
        match createdVal r with
        | .vStr s => parseWeiboDate s
        | _ => none
      else none

/-- The reads delta one line contributes (meaningful when `lineYear` is
`some`). -/
def lineReads : WeiboLine → Int
  | .malformed => 0
  | .record r => readsVal r.reads_count

/-- The year `process_data` derives for a record, `none` when the
derivation raises. -/
def videoYearOf (r : VideoRecord) : Option Int :=
  match videoYear r.create_time with
  | .ok y => some y
  | .error _ => none

/-- Does a douyin record pass every fallible read of `videoStep`? -/
def recOk (r : VideoRecord) : Bool :=
  (videoYearOf r).isSome &&
  (engagementVal r.liked_count).isSome && (engagementVal r.collected_count).isSome &&
  (engagementVal r.comment_count).isSome && (engagementVal r.share_count).isSome

/-- The per-record contribution of a good douyin record. -/
def vDelta (r : VideoRecord) : VStats :=
  ⟨1, (engagementVal r.liked_count).getD 0, (engagementVal r.collected_count).getD 0,
   (engagementVal r.comment_count).getD 0, (engagementVal r.share_count).getD 0⟩

/-- Componentwise addition of the per-year accumulators. -/
def vAdd (s d : VStats) : VStats :=
  ⟨s.post_count + d.post_count, s.total_likes + d.total_likes,
   s.total_collections + d.total_collections, s.total_comments + d.total_comments,
   s.total_shares + d.total_shares⟩

/-- The total (never-throwing) restriction of `videoStep` to records that
pass `recOk`. -/
def vStepOk (t : List (Int × VStats)) (r : VideoRecord) : List (Int × VStats) :=
  match videoYearOf r with
  | none => t
  | some y => aupdate t y VStats.zero (fun s => vAdd s (vDelta r))

/-- The aggregate contribution of the records of a list that fall in one
year, component by component. -/
def vSummary (l : List VideoRecord) (y : Int) : VStats :=
  ⟨(l.filter (fun r => videoYearOf r == some y)).length,
   ((l.filter (fun r => videoYearOf r == some y)).map
     (fun r => (engagementVal r.liked_count).getD 0)).sum,
   ((l.filter (fun r => videoYearOf r == some y)).map
     (fun r => (engagementVal r.collected_count).getD 0)).sum,
   ((l.filter (fun r => videoYearOf r == some y)).map
     (fun r => (engagementVal r.comment_count).getD 0)).sum,
   ((l.filter (fun r => videoYearOf r == some y)).map
     (fun r => (engagementVal r.share_count).getD 0)).sum⟩

/-- Merge a prior per-year entry with the aggregate contribution of a
list of records for that year. -/
def vCombine (o : Option VStats) (l : List VideoRecord) (y : Int) : Option VStats :=
  match o with
  | none => if l.countP (fun r => videoYearOf r == some y) = 0 then none else some (vSummary l y)
  | some s => some (vAdd s (vSummary l y))

/-- Merge a prior weibo per-year entry with the count and reads delta of
a list of lines for that year. -/
def wCombine (o : Option WStats) (cnt : Nat) (rs : Int) : Option WStats :=
  match o with
  | none => if cnt = 0 then none else some ⟨cnt, rs⟩
  | some s => some ⟨s.post_count + cnt, s.reads_count + rs⟩

/-- How many lines of `l` the extended weibo pass buckets into year `y`. -/
def wCount (l : List WeiboLine) (y : Int) : Nat :=
  l.countP (fun ln => lineYear ln == some y)

/-- The reads total the extended weibo pass adds to year `y` from `l`. -/
def wReads (l : List WeiboLine) (y : Int) : Int :=
  ((l.filter (fun ln => lineYear ln == some y)).map lineReads).sum

/-- The post-count column total of a weibo table. -/
def wPostSum (t : List (Int × WStats)) : Nat := (t.map (fun p => p.2.post_count)).sum

/-- The reads column total of a weibo table. -/
def wReadsSum (t : List (Int × WStats)) : Int := (t.map (fun p => p.2.reads_count)).sum

/-- The post-count column total of a douyin table. -/
def vPostSum (t : List (Int × VStats)) : Nat := (t.map (fun p => p.2.post_count)).sum

/-- Two insertion-ordered dicts hold the same mapping (Python `==` on
dicts ignores insertion order). -/
def dictEquiv {κ α : Type} [DecidableEq κ] (t₁ t₂ : List (κ × α)) : Prop :=
  ∀ q, alookup t₁ q = alookup t₂ q

/-- The two runs of the douyin pass agree observably: both abort, or both
produce the same year → stats mapping. -/
def sameOutcome (a b : Except Unit (List (Int × VStats))) : Prop :=
  match a, b with
  | .ok t₁, .ok t₂ => dictEquiv t₁ t₂
  | .error _, .error _ => True
  | _, _ => False

/-- Does the marker phrase occur anywhere in the text? -/
def hasMarker : List Char → Bool
  | [] => false
  | c :: cs => startsWithChars ipMarker (c :: cs) || hasMarker cs

/-- Suffix test on explicit character lists. -/
def endsWithChars (sfx cs : List Char) : Bool :=
  startsWithChars sfx.reverse cs.reverse

/-- The short names of mainland regions: the canonical set minus the
entries for Hong Kong / Macao / Taiwan, whose short names begin with 中国. -/
def mainlandShortNames : List String :=
  CHINA_PROVINCES.filter (fun s => !(startsWithChars ['中', '国'] s.toList))

/-! ## Association-list lemmas -/

theorem alookup_aupdate_self {κ α : Type} [DecidableEq κ] (t : List (κ × α)) (q : κ)
    (d : α) (f : α → α) :
    alookup (aupdate t q d f) q = some (f ((alookup t q).getD d)) := by
  induction t with
  | nil => simp [aupdate, alookup]
  | cons kv rest ih =>
    obtain ⟨k, v⟩ := kv
    by_cases h : q = k
    · subst h; simp [aupdate, alookup]
    · simp [aupdate, alookup, h, ih]

theorem alookup_aupdate_ne {κ α : Type} [DecidableEq κ] (t : List (κ × α)) (q q' : κ)
    (d : α) (f : α → α) (h : q' ≠ q) :
    alookup (aupdate t q d f) q' = alookup t q' := by
  induction t with
  | nil => simp [aupdate, alookup, h]
  | cons kv rest ih =>
    obtain ⟨k, v⟩ := kv
    by_cases hk : q = k
    · subst hk; simp [aupdate, alookup, h]
    · by_cases hk' : q' = k <;> simp [aupdate, alookup, hk, hk', ih]

theorem keys_aupdate {κ α : Type} [DecidableEq κ] (t : List (κ × α)) (q : κ)
    (d : α) (f : α → α) :
    (aupdate t q d f).map Prod.fst =
      if (alookup t q).isSome then t.map Prod.fst else t.map Prod.fst ++ [q] := by
  induction t with
  | nil => simp [aupdate, alookup]
  | cons kv rest ih =>
    obtain ⟨k, v⟩ := kv
    by_cases h : q = k
    · subst h; simp [aupdate, alookup]
    · simp [aupdate, alookup, h, ih]
      by_cases h2 : (alookup rest q).isSome <;> simp [h2]

theorem alookup_isSome_iff_mem {κ α : Type} [DecidableEq κ] (t : List (κ × α)) (q : κ) :
    (alookup t q).isSome = true ↔ q ∈ t.map Prod.fst := by
  induction t with
  | nil => simp [alookup]
  | cons kv rest ih =>
    obtain ⟨k, v⟩ := kv
    by_cases h : q = k <;> simp [alookup, h, ih]

theorem nodup_keys_aupdate {κ α : Type} [DecidableEq κ] (t : List (κ × α)) (q : κ)
    (d : α) (f : α → α) (h : (t.map Prod.fst).Nodup) :
    ((aupdate t q d f).map Prod.fst).Nodup := by
  rw [keys_aupdate]
  by_cases hq : (alookup t q).isSome
  · simpa [hq] using h
  · have hq' : q ∉ t.map Prod.fst := by
      rw [← alookup_isSome_iff_mem]
      simpa using hq
    simp [hq, List.nodup_append, h, hq']

theorem sum_aupdate {κ α M : Type} [DecidableEq κ] [AddCommMonoid M]
    (g : α → M) (t : List (κ × α)) (q : κ) (d : α) (f : α → α) (dl : M)
    (hf : ∀ x, g (f x) = g x + dl) (hd : g d = 0) :
    ((aupdate t q d f).map (fun p => g p.2)).sum = (t.map (fun p => g p.2)).sum + dl := by
  induction t with
  | nil => simp [aupdate, hf, hd]
  | cons kv rest ih =>
    obtain ⟨k, v⟩ := kv
    by_cases h : q = k
    · subst h
      simp [aupdate, hf]
      abel
    · simp [aupdate, h, ih]
      abel

/-! ## Weibo (extended) step and fold lemmas -/

theorem weiboExtStep_of_none (t : List (Int × WStats)) (ln : WeiboLine)
    (h : lineYear ln = none) : weiboExtStep t ln = t := by
  cases ln with
  | malformed => rfl
  | record r =>
    simp only [lineYear] at h
    simp only [weiboExtStep]
    by_cases ht : pyTruthy (createdVal r)
    · rw [if_pos ht] at h
      rw [if_pos ht]
      cases hc : createdVal r <;> simp only [hc] at h ⊢
      rw [h]
    · rw [if_neg ht]

theorem weiboExtStep_of_some (t : List (Int × WStats)) (r : WeiboRecord) (y : Int)
    (h : lineYear (.record r) = some y) :
    weiboExtStep t (.record r) =
      aupdate t y ⟨0, 0⟩
        (fun s0 => ⟨s0.post_count + 1, s0.reads_count + readsVal r.reads_count⟩) := by
  simp only [lineYear] at h
  by_cases ht : pyTruthy (createdVal r)
  · rw [if_pos ht] at h
    simp only [weiboExtStep, if_pos ht]
    cases hc : createdVal r <;> simp only [hc] at h ⊢
    · exact Option.noConfusion h
    · exact Option.noConfusion h
    · exact Option.noConfusion h
    · rw [h]
    · exact Option.noConfusion h
  · rw [if_neg ht] at h
    exact absurd h (by simp)

theorem weibo_lookup_foldl (l : List WeiboLine) (t : List (Int × WStats)) (y : Int) :
    alookup (l.foldl weiboExtStep t) y = wCombine (alookup t y) (wCount l y) (wReads l y) := by
  induction l generalizing t with
  | nil =>
    cases h : alookup t y <;> simp [wCombine, wCount, wReads, h]
  | cons ln rest ih =>
    rw [List.foldl_cons, ih]
    rcases hy : lineYear ln with _ | y'
    · rw [weiboExtStep_of_none _ _ hy]
      have hne : (lineYear ln == some y) = false := by simp [hy]
      simp [wCount, wReads, List.countP_cons, List.filter_cons, hne]
    · cases ln with
      | malformed => simp [lineYear] at hy
      | record r =>
        by_cases hyy : y' = y
        · subst hyy
          rw [weiboExtStep_of_some _ _ _ hy, alookup_aupdate_self]
          have hhit : (lineYear (WeiboLine.record r) == some y') = true := by simp [hy]
          cases h : alookup t y' <;>
            simp [wCombine, wCount, wReads, List.countP_cons, List.filter_cons, hhit, h,
              lineReads, WStats.mk.injEq] <;>
            omega
        · rw [weiboExtStep_of_some _ _ _ hy, alookup_aupdate_ne _ _ _ _ _ (Ne.symm hyy)]
          have hne : (lineYear (WeiboLine.record r) == some y) = false := by
            simp [hy]; exact hyy
          simp [wCount, wReads, List.countP_cons, List.filter_cons, hne]

theorem wPostSum_foldl (l : List WeiboLine) (t : List (Int × WStats)) :
    wPostSum (l.foldl weiboExtStep t) =
      wPostSum t + l.countP (fun ln => (lineYear ln).isSome) := by
  induction l generalizing t with
  | nil => simp [wPostSum]
  | cons ln rest ih =>
    rw [List.foldl_cons, ih]
    rcases hy : lineYear ln with _ | y'
    · rw [weiboExtStep_of_none _ _ hy]
      simp [List.countP_cons, hy]
    · cases ln with
      | malformed => simp [lineYear] at hy
      | record r =>
        rw [weiboExtStep_of_some _ _ _ hy]
        have hsum := @sum_aupdate Int WStats Nat _ _ (fun s => s.post_count) t y'
          ⟨0, 0⟩ (fun s0 => ⟨s0.post_count + 1, s0.reads_count + readsVal r.reads_count⟩) 1
          (fun x => rfl) rfl
        have hsum' : wPostSum
            (aupdate t y' ⟨0, 0⟩
              (fun s0 => ⟨s0.post_count + 1, s0.reads_count + readsVal r.reads_count⟩)) =
            wPostSum t + 1 := hsum
        rw [hsum']
        simp [List.countP_cons, hy]
        omega

theorem wReadsSum_step (t : List (Int × WStats)) (r : WeiboRecord) (y : Int)
    (h : lineYear (.record r) = some y) :
    wReadsSum (weiboExtStep t (.record r)) = wReadsSum t + readsVal r.reads_count := by
  rw [weiboExtStep_of_some _ _ _ h]
  have hsum := @sum_aupdate Int WStats Int _ _ (fun s => s.reads_count) t y
    ⟨0, 0⟩ (fun s0 => ⟨s0.post_count + 1, s0.reads_count + readsVal r.reads_count⟩)
    (readsVal r.reads_count) (fun x => rfl) rfl
  exact hsum


/-! ## Douyin step and fold lemmas -/

/-- The fold of `process_data` from an arbitrary accumulator. -/
def foldE (l : List VideoRecord) (acc : Except Unit (List (Int × VStats))) :
    Except Unit (List (Int × VStats)) :=
  l.foldl (fun acc item => acc.bind (fun t => videoStep t item)) acc

theorem process_data_eq_foldE (l : List VideoRecord) : process_data l = foldE l (.ok []) := rfl

theorem foldE_cons (l : List VideoRecord) (a : VideoRecord)
    (acc : Except Unit (List (Int × VStats))) :
    foldE (a :: l) acc = foldE l (acc.bind (fun t => videoStep t a)) := rfl

theorem videoStep_ok (t : List (Int × VStats)) (r : VideoRecord) (h : recOk r = true) :
    videoStep t r = .ok (vStepOk t r) := by
  unfold recOk at h
  simp only [Bool.and_eq_true] at h
  obtain ⟨⟨⟨⟨h1, h2⟩, h3⟩, h4⟩, h5⟩ := h
  obtain ⟨y, hy⟩ := Option.isSome_iff_exists.mp h1
  obtain ⟨a, ha⟩ := Option.isSome_iff_exists.mp h2
  obtain ⟨b, hb⟩ := Option.isSome_iff_exists.mp h3
  obtain ⟨c, hc⟩ := Option.isSome_iff_exists.mp h4
  obtain ⟨d, hd⟩ := Option.isSome_iff_exists.mp h5
  have hv : videoYear r.create_time = .ok y := by
    unfold videoYearOf at hy
    cases hvv : videoYear r.create_time <;> simp [hvv] at hy
    rw [hy]
  have hfun : (fun s : VStats =>
      ({ post_count := s.post_count + 1, total_likes := s.total_likes + a,
         total_collections := s.total_collections + b,
         total_comments := s.total_comments + c,
         total_shares := s.total_shares + d } : VStats)) =
      (fun s => vAdd s (vDelta r)) := by
    funext s
    simp [vAdd, vDelta, ha, hb, hc, hd]
  simp only [videoStep, hv, ha, hb, hc, hd, vStepOk, hy, hfun]

theorem videoStep_error (t : List (Int × VStats)) (r : VideoRecord) (h : recOk r = false) :
    videoStep t r = .error () := by
  rcases hv : videoYear r.create_time with u | y
  · simp [videoStep, hv]
  · rcases ha : engagementVal r.liked_count with _ | a
    · simp [videoStep, hv, ha]
    · rcases hb : engagementVal r.collected_count with _ | b
      · simp [videoStep, hv, ha, hb]
      · rcases hc : engagementVal r.comment_count with _ | c
        · simp [videoStep, hv, ha, hb, hc]
        · rcases hd : engagementVal r.share_count with _ | d
          · simp [videoStep, hv, ha, hb, hc, hd]
          · exfalso
            unfold recOk at h
            simp [videoYearOf, hv, ha, hb, hc, hd] at h

theorem foldE_from_error (l : List VideoRecord) : foldE l (.error ()) = .error () := by
  induction l with
  | nil => rfl
  | cons a l ih =>
    rw [foldE_cons]
    exact ih

theorem foldE_ok_of_all (l : List VideoRecord) (t0 : List (Int × VStats))
    (h : ∀ r ∈ l, recOk r = true) :
    foldE l (.ok t0) = .ok (l.foldl vStepOk t0) := by
  induction l generalizing t0 with
  | nil => rfl
  | cons a l ih =>
    have ha : recOk a = true := h a (List.mem_cons_self a l)
    rw [foldE_cons, List.foldl_cons]
    have hstep : (Except.ok t0).bind (fun t => videoStep t a) = .ok (vStepOk t0 a) := by
      simp [Except.bind, videoStep_ok _ _ ha]
    rw [hstep]
    exact ih _ (fun r hr => h r (List.mem_cons_of_mem a hr))

theorem foldE_error_of_bad (l : List VideoRecord) :
    ∀ r : VideoRecord, r ∈ l → recOk r = false →
    ∀ t0 : List (Int × VStats), foldE l (.ok t0) = .error () := by
  induction l with
  | nil => intro r hr; cases hr
  | cons a l ih =>
    intro r hr hbad t0
    rw [foldE_cons]
    rcases List.mem_cons.mp hr with rfl | hmem'
    · have hstep : (Except.ok t0).bind (fun t => videoStep t r) = .error () := by
        simp [Except.bind, videoStep_error _ _ hbad]
      rw [hstep]
      exact foldE_from_error l
    · cases hgood : recOk a
      · have hstep : (Except.ok t0).bind (fun t => videoStep t a) = .error () := by
          simp [Except.bind, videoStep_error _ _ hgood]
        rw [hstep]
        exact foldE_from_error l
      · have hstep : (Except.ok t0).bind (fun t => videoStep t a) = .ok (vStepOk t0 a) := by
          simp [Except.bind, videoStep_ok _ _ hgood]
        rw [hstep]
        exact ih r hmem' hbad _

theorem process_data_ok_inv (l : List VideoRecord) (t : List (Int × VStats))
    (h : process_data l = .ok t) :
    (∀ r ∈ l, recOk r = true) ∧ t = l.foldl vStepOk [] := by
  have hall : ∀ r ∈ l, recOk r = true := by
    intro r hr
    by_contra hb
    have hb' : recOk r = false := by simpa using hb
    have herr := foldE_error_of_bad l r hr hb' []
    rw [process_data_eq_foldE, herr] at h
    cases h
  refine ⟨hall, ?_⟩
  have hok := foldE_ok_of_all l [] hall
  rw [process_data_eq_foldE, hok] at h
  exact (Except.ok.inj h).symm

theorem process_data_error_of_bad (l : List VideoRecord) (r : VideoRecord)
    (hmem : r ∈ l) (hbad : recOk r = false) : process_data l = .error () := by
  rw [process_data_eq_foldE]
  exact foldE_error_of_bad l r hmem hbad []

theorem video_lookup_foldl (l : List VideoRecord) (t : List (Int × VStats)) (y : Int) :
    alookup (l.foldl vStepOk t) y = vCombine (alookup t y) l y := by
  induction l generalizing t with
  | nil => cases h : alookup t y <;> simp [vCombine, vSummary, h, vAdd]
  | cons r rest ih =>
    rw [List.foldl_cons, ih]
    rcases hy : videoYearOf r with _ | y'
    · simp only [vStepOk, hy]
      have hne : (videoYearOf r == some y) = false := by simp [hy]
      simp [vCombine, vSummary, List.countP_cons, List.filter_cons, hne]
    · by_cases hyy : y' = y
      · subst hyy
        simp only [vStepOk, hy]
        rw [alookup_aupdate_self]
        have hhit : (videoYearOf r == some y') = true := by simp [hy]
        cases h : alookup t y' <;>
          simp [vCombine, vSummary, List.countP_cons, List.filter_cons, hhit, h,
            vAdd, vDelta, VStats.zero, VStats.mk.injEq] <;>
          omega
      · simp only [vStepOk, hy]
        rw [alookup_aupdate_ne _ _ _ _ _ (Ne.symm hyy)]
        have hne : (videoYearOf r == some y) = false := by
          simp [hy]
          exact hyy
        simp [vCombine, vSummary, List.countP_cons, List.filter_cons, hne]

theorem vPostSum_foldl (l : List VideoRecord) (t : List (Int × VStats)) :
    vPostSum (l.foldl vStepOk t) = vPostSum t + l.countP (fun r => (videoYearOf r).isSome) := by
  induction l generalizing t with
  | nil => simp [vPostSum]
  | cons r rest ih =>
    rw [List.foldl_cons, ih]
    rcases hy : videoYearOf r with _ | y'
    · simp only [vStepOk, hy]
      simp [List.countP_cons, hy]
    · simp only [vStepOk, hy]
      have hsum := @sum_aupdate Int VStats Nat _ _ (fun s => s.post_count) t y'
        VStats.zero (fun s => vAdd s (vDelta r)) 1 (fun x => rfl) rfl
      have hsum' : vPostSum (aupdate t y' VStats.zero (fun s => vAdd s (vDelta r))) =
          vPostSum t + 1 := hsum
      rw [hsum']
      simp [List.countP_cons, hy]
      omega

theorem nodup_keys_foldl_vStepOk (l : List VideoRecord) (t : List (Int × VStats))
    (h : (t.map Prod.fst).Nodup) : ((l.foldl vStepOk t).map Prod.fst).Nodup := by
  induction l generalizing t with
  | nil => exact h
  | cons r rest ih =>
    rw [List.foldl_cons]
    apply ih
    rcases hy : videoYearOf r with _ | y'
    · simpa [vStepOk, hy] using h
    · simp only [vStepOk, hy]
      exact nodup_keys_aupdate _ _ _ _ h

/-! ## IP-location lemmas -/

theorem searchCapture_eq_none_of_no_marker (cs : List Char) (h : hasMarker cs = false) :
    searchCapture cs = none := by
  induction cs with
  | nil => rfl
  | cons c rest ih =>
    simp only [hasMarker, Bool.or_eq_false_iff] at h
    obtain ⟨h1, h2⟩ := h
    simp only [searchCapture, ipMatchAt, h1]
    simp only [Bool.false_eq_true, if_false]
    exact ih h2

theorem ipStep_eq_or_bump (c : List (String × Nat)) (ln : WeiboLine) :
    ipStep c ln = c ∨ ∃ p, p ∈ CHINA_PROVINCES ∧
      ipStep c ln = aupdate c ((alookup CHINA_PROVINCES_MAP p).getD "") 0 (fun n => n + 1) := by
  cases ln with
  | malformed => exact Or.inl rfl
  | record r =>
    cases hv : r.ip_location.getD (.vStr "") with
    | vStr s =>
      cases hm : searchCapture s.toList with
      | none =>
        left
        simp only [String.toList] at hm
        simp [ipStep, hv, hm]
      | some tok =>
        by_cases hp : String.mk tok ∈ CHINA_PROVINCES
        · right
          refine ⟨String.mk tok, hp, ?_⟩
          simp only [String.toList] at hm
          simp [ipStep, hv, hm, hp]
        · left
          simp only [String.toList] at hm
          simp [ipStep, hv, hm, hp]
    | vNull => left; simp [ipStep, hv]
    | vBool b => left; simp [ipStep, hv]
    | vInt n => left; simp [ipStep, hv]
    | vComposite ne => left; simp [ipStep, hv]

theorem provMap_mem_canonical :
    ∀ p ∈ CHINA_PROVINCES, (alookup CHINA_PROVINCES_MAP p).getD "" ∈ canonicalRegionNames := by
  decide

theorem ip_fold_invariant (l : List WeiboLine) (c : List (String × Nat))
    (hk : ∀ k ∈ c.map Prod.fst, k ∈ canonicalRegionNames) :
    (∀ k ∈ (l.foldl ipStep c).map Prod.fst, k ∈ canonicalRegionNames) ∧
    ((l.foldl ipStep c).map (fun p => p.2)).sum ≤ (c.map (fun p => p.2)).sum + l.length := by
  induction l generalizing c with
  | nil => exact ⟨hk, by simp⟩
  | cons ln rest ih =>
    rw [List.foldl_cons]
    rcases ipStep_eq_or_bump c ln with he | ⟨p, hp, he⟩
    · rw [he]
      obtain ⟨ha, hb⟩ := ih c hk
      refine ⟨ha, ?_⟩
      simp only [List.length_cons]
      omega
    · rw [he]
      have hk' : ∀ k ∈ (aupdate c ((alookup CHINA_PROVINCES_MAP p).getD "") 0
          (fun n => n + 1)).map Prod.fst, k ∈ canonicalRegionNames := by
        intro k hkmem
        rw [keys_aupdate] at hkmem
        by_cases hs : (alookup c ((alookup CHINA_PROVINCES_MAP p).getD "")).isSome
        · rw [if_pos hs] at hkmem
          exact hk k hkmem
        · rw [if_neg hs] at hkmem
          rcases List.mem_append.mp hkmem with h1 | h1
          · exact hk k h1
          · obtain rfl := List.mem_singleton.mp h1
            exact provMap_mem_canonical _ hp
      have hsum : ((aupdate c ((alookup CHINA_PROVINCES_MAP p).getD "") 0
          (fun n => n + 1)).map (fun q => q.2)).sum = (c.map (fun q => q.2)).sum + 1 :=
        @sum_aupdate String Nat Nat _ _ (fun n => n) c
          ((alookup CHINA_PROVINCES_MAP p).getD "") 0 (fun n => n + 1) 1 (fun x => rfl) rfl
      obtain ⟨ha, hb⟩ := ih _ hk'
      refine ⟨ha, ?_⟩
      rw [hsum] at hb
      simp only [List.length_cons]
      omega

/-! ## Claim theorems -/

/-- C2: folding one microblog record with a derivable year into the
yearly statistics increases the reads total by exactly 3000 when the
read-count field is entirely absent; when the field is a string, by the
integer left after stripping thousands-separator commas when the
remainder is numeric (`"1,234"` adds 1234) and by 0 when it is not
(`"abc"` adds 0); by its value when it is an `int` (a Python `bool` is an
`int` and contributes 0 or 1 the same way); and by 0 for any value of any
other type. -/
theorem c2_reads_delta (t : List (Int × WStats)) (r : WeiboRecord) (y : Int)
    (hy : lineYear (.record r) = some y) :
    wReadsSum (weiboExtStep t (.record r)) = wReadsSum t + readsVal r.reads_count ∧
    readsVal none = 3000 ∧
    (∀ s : String, readsVal (some (.vStr s)) =
      if pyIsDigit (stripCommas s) then (natOfDigits (stripCommas s).toList : Int) else 0) ∧
    readsVal (some (.vStr "1,234")) = 1234 ∧
    readsVal (some (.vStr "abc")) = 0 ∧
    (∀ n : Int, readsVal (some (.vInt n)) = n) ∧
    (∀ v : JsonVal, (∀ n, v ≠ .vInt n) → (∀ b, v ≠ .vBool b) → (∀ s, v ≠ .vStr s) →
      readsVal (some v) = 0) := by
  refine ⟨wReadsSum_step t r y hy, rfl, fun s => rfl, by decide, by decide, fun n => rfl, ?_⟩
  intro v h1 h2 h3
  cases v with
  | vNull => rfl
  | vBool b => exact absurd rfl (h2 b)
  | vInt n => exact absurd rfl (h1 n)
  | vStr s => exact absurd rfl (h3 s)
  | vComposite ne => rfl

/-- Witness for C2 at a concrete record carrying reads `"1,234"`. -/
theorem c2_reads_delta_witness :
    wReadsSum (weiboExtStep []
        (.record ⟨some (.vStr "2021-07-01 12:28:00"), some (.vStr "1,234"), none⟩)) =
      wReadsSum [] + readsVal (some (.vStr "1,234")) ∧
    readsVal (some (.vStr "1,234")) = 1234 :=
  have h := c2_reads_delta []
    ⟨some (.vStr "2021-07-01 12:28:00"), some (.vStr "1,234"), none⟩ 2021 (by decide)
  ⟨h.1, h.2.2.2.1⟩

/-- C3: each douyin engagement field defaults to 0 when absent and is
`int`-coerced when present; a present value that does not coerce is not
caught locally: the whole `process_data` pass for the file aborts. -/
theorem c3_engagement (l : List VideoRecord) (r : VideoRecord) (hmem : r ∈ l)
    (hbad : ¬ ((engagementVal r.liked_count).isSome ∧ (engagementVal r.collected_count).isSome ∧
               (engagementVal r.comment_count).isSome ∧ (engagementVal r.share_count).isSome)) :
    process_data l = .error () ∧
    engagementVal none = some 0 ∧
    (∀ v n, pyIntCoerce v = some n → engagementVal (some v) = some n) ∧
    (∀ v, pyIntCoerce v = none → engagementVal (some v) = none) := by
  refine ⟨?_, rfl, fun v n h => h, fun v h => h⟩
  have hrec : recOk r = false := by
    cases hrec : recOk r
    · rfl
    · exfalso
      apply hbad
      unfold recOk at hrec
      simp only [Bool.and_eq_true] at hrec
      exact ⟨hrec.1.1.1.2, hrec.1.1.2, hrec.1.2, hrec.2⟩
  exact process_data_error_of_bad l r hmem hrec

/-- Witness for C3: one record with the non-coercible likes value
`"abc"` aborts the whole pass. -/
theorem c3_engagement_witness :
    process_data [⟨some (.vInt 0), some (.vStr "abc"), none, none, none⟩] = .error () :=
  (c3_engagement _ _ (List.mem_singleton.mpr rfl) (by decide)).1

/-- C9: a douyin record whose `create_time` is missing or not a numeric
epoch value makes its step raise, and the uncaught error aborts the whole
`process_data` pass — the silent per-record skip policy never applies to
the video source's timestamp handling. -/
theorem c9_timestamp (l : List VideoRecord) (t : List (Int × VStats)) (r : VideoRecord)
    (hmem : r ∈ l)
    (hbad : r.create_time = none ∨
      ∃ v, r.create_time = some v ∧ (∀ n, v ≠ .vInt n) ∧ (∀ b, v ≠ .vBool b)) :
    videoStep t r = .error () ∧ process_data l = .error () := by
  have hv : videoYear r.create_time = .error () := by
    rcases hbad with h | ⟨v, hveq, h1, h2⟩
    · rw [h]; rfl
    · rw [hveq]
      cases v with
      | vNull => rfl
      | vBool b => exact absurd rfl (h2 b)
      | vInt n => exact absurd rfl (h1 n)
      | vStr s => rfl
      | vComposite ne => rfl
  have hrec : recOk r = false := by
    unfold recOk
    simp [videoYearOf, hv]
  exact ⟨videoStep_error t r hrec, process_data_error_of_bad l r hmem hrec⟩

/-- Witness for C9: a record with no `create_time` key aborts the pass. -/
theorem c9_timestamp_witness :
    videoStep [] ⟨none, none, none, none, none⟩ = .error () ∧
    process_data [⟨none, none, none, none, none⟩] = .error () :=
  c9_timestamp _ [] _ (List.mem_singleton.mpr rfl) (Or.inl rfl)

/-- C1 counterexample: in `statistics.process_weibo_jsonl` a record whose
non-empty date string fails to parse does not merely get skipped — the
uncaught `ValueError` escapes the `except json.JSONDecodeError` handler
and aborts the whole aggregation pass, so the claim that a date-parse
failure never aborts the pass is false on this input. -/
theorem c1_counterexample :
    process_weibo_jsonl_basic
      [WeiboLine.record ⟨some (.vStr "2025-13-01 12:28:00"), none, none⟩] = .error () := rfl

/-- C1 (amended): a microblog record whose date field is missing or empty
is silently skipped by both weibo passes; a record whose non-empty date
string fails to parse in the exact format `YYYY-MM-DD HH:MM:SS` is
silently skipped only by the extended pass (`statistics_only_weibo.py`,
whose broad handler keeps the fold total and never aborted), while the
basic pass (`statistics.py`) catches only JSON decode errors, so there
the parse failure propagates and aborts the aggregation pass. -/
theorem c1_amended :
    (∀ (t : List (Int × WStats)) (t2 : List (Int × Nat)) (r : WeiboRecord),
      r.created_at = none ∨ r.created_at = some (.vStr "") →
      weiboExtStep t (.record r) = t ∧ weiboBasicStep t2 (.record r) = .ok t2) ∧
    (∀ (t : List (Int × WStats)) (t2 : List (Int × Nat)) (r : WeiboRecord) (s : String),
      r.created_at = some (.vStr s) → s ≠ "" → parseWeiboDate s = none →
      weiboExtStep t (.record r) = t ∧ weiboBasicStep t2 (.record r) = .error ()) := by
  constructor
  · intro t t2 r h
    have hc : createdVal r = .vStr "" := by
      rcases h with h | h <;> simp [createdVal, h]
    have hf : pyTruthy (createdVal r) = false := by rw [hc]; rfl
    exact ⟨by simp [weiboExtStep, hf], by simp [weiboBasicStep, hf]⟩
  · intro t t2 r s h hne hparse
    have hc : createdVal r = .vStr s := by simp [createdVal, h]
    have hemp : s.isEmpty = false := by
      rw [Bool.eq_false_iff]
      intro he
      exact hne ((String.isEmpty_iff s).mp he)
    have htr : pyTruthy (.vStr s) = true := by
      simp [pyTruthy, hemp]
    constructor
    · simp [weiboExtStep, hc, htr, hparse]
    · simp [weiboBasicStep, hc, htr, hparse]

/-- Witness for C1 (amended) at a concrete unparseable date. -/
theorem c1_amended_witness :
    weiboExtStep [] (.record ⟨some (.vStr "not a date"), none, none⟩) = [] ∧
    weiboBasicStep [] (.record ⟨some (.vStr "not a date"), none, none⟩) = .error () :=
  c1_amended.2 [] [] ⟨some (.vStr "not a date"), none, none⟩ "not a date" rfl
    (by decide) (by decide)

/-- C4: permuting the input records of either source leaves the yearly
statistics table unchanged: the douyin pass aborts on both orders or
produces dicts with identical year→stats mappings, and the extended weibo
pass produces dicts with identical mappings. -/
theorem c4_perm (l1 l2 : List VideoRecord) (m1 m2 : List WeiboLine)
    (hv : List.Perm l1 l2) (hw : List.Perm m1 m2) :
    sameOutcome (process_data l1) (process_data l2) ∧
    dictEquiv (process_weibo_jsonl m1) (process_weibo_jsonl m2) := by
  constructor
  · by_cases hall : ∀ r ∈ l1, recOk r = true
    · have hall2 : ∀ r ∈ l2, recOk r = true := fun r hr => hall r (hv.mem_iff.mpr hr)
      have h1 : process_data l1 = .ok (l1.foldl vStepOk []) := by
        rw [process_data_eq_foldE]
        exact foldE_ok_of_all l1 [] hall
      have h2 : process_data l2 = .ok (l2.foldl vStepOk []) := by
        rw [process_data_eq_foldE]
        exact foldE_ok_of_all l2 [] hall2
      rw [h1, h2]
      show dictEquiv (l1.foldl vStepOk []) (l2.foldl vStepOk [])
      intro y
      rw [video_lookup_foldl, video_lookup_foldl]
      have hperm := hv.filter (fun r => videoYearOf r == some y)
      have hcnt : l1.countP (fun r => videoYearOf r == some y) =
          l2.countP (fun r => videoYearOf r == some y) :=
        hv.countP_eq (fun r => videoYearOf r == some y)
      have hsummary : vSummary l1 y = vSummary l2 y := by
        unfold vSummary
        rw [hperm.length_eq, (hperm.map (fun r => (engagementVal r.liked_count).getD 0)).sum_eq,
          (hperm.map (fun r => (engagementVal r.collected_count).getD 0)).sum_eq,
          (hperm.map (fun r => (engagementVal r.comment_count).getD 0)).sum_eq,
          (hperm.map (fun r => (engagementVal r.share_count).getD 0)).sum_eq]
      simp only [vCombine, hcnt, hsummary]
    · push_neg at hall
      obtain ⟨r, hr, hb⟩ := hall
      have hb' : recOk r = false := by simpa using hb
      have h1 := process_data_error_of_bad l1 r hr hb'
      have h2 := process_data_error_of_bad l2 r (hv.mem_iff.mp hr) hb'
      rw [h1, h2]
      exact trivial
  · intro y
    rw [process_weibo_jsonl, process_weibo_jsonl, weibo_lookup_foldl, weibo_lookup_foldl]
    have hcnt : wCount m1 y = wCount m2 y := hw.countP_eq (fun ln => lineYear ln == some y)
    have hreads : wReads m1 y = wReads m2 y :=
      ((hw.filter (fun ln => lineYear ln == some y)).map lineReads).sum_eq
    rw [hcnt, hreads]

/-- Witness for C4 on concrete two-element inputs and their swaps. -/
theorem c4_perm_witness :
    sameOutcome
      (process_data [⟨some (.vInt 0), none, none, none, none⟩,
                     ⟨some (.vInt 1751343000), some (.vInt 5), none, none, none⟩])
      (process_data [⟨some (.vInt 1751343000), some (.vInt 5), none, none, none⟩,
                     ⟨some (.vInt 0), none, none, none, none⟩]) ∧
    dictEquiv
      (process_weibo_jsonl [.malformed,
        .record ⟨some (.vStr "2021-07-01 12:28:00"), some (.vInt 7), none⟩])
      (process_weibo_jsonl [.record ⟨some (.vStr "2021-07-01 12:28:00"), some (.vInt 7), none⟩,
        .malformed]) :=
  c4_perm _ _ _ _ (by decide) (by decide)

/-- C5: the per-year post counts sum to the number of records that
produced a valid year: every record of a successful douyin pass does, so
there the sum is the full input length; for the extended weibo pass the
sum counts exactly the lines that derived a year (total minus skipped). -/
theorem c5_post_counts (l : List VideoRecord) (t : List (Int × VStats))
    (h : process_data l = .ok t) (m : List WeiboLine) :
    vPostSum t = l.length ∧
    wPostSum (process_weibo_jsonl m) = m.countP (fun ln => (lineYear ln).isSome) := by
  constructor
  · obtain ⟨hall, ht⟩ := process_data_ok_inv l t h
    subst ht
    rw [vPostSum_foldl]
    have hcnt : l.countP (fun r => (videoYearOf r).isSome) = l.length := by
      rw [List.countP_eq_length]
      intro r hr
      have hrec := hall r hr
      unfold recOk at hrec
      simp only [Bool.and_eq_true] at hrec
      exact hrec.1.1.1.1
    rw [hcnt]
    simp [vPostSum]
  · rw [process_weibo_jsonl, wPostSum_foldl]
    simp [wPostSum]

/-- Witness for C5 on a one-record douyin input and a two-line weibo
input with one skipped line. -/
theorem c5_post_counts_witness :
    vPostSum [(1970, ⟨1, 0, 0, 0, 0⟩)] =
      [(⟨some (.vInt 0), none, none, none, none⟩ : VideoRecord)].length ∧
    wPostSum (process_weibo_jsonl
        [.malformed, .record ⟨some (.vStr "2021-07-01 12:28:00"), none, none⟩]) =
      [WeiboLine.malformed,
       .record ⟨some (.vStr "2021-07-01 12:28:00"), none, none⟩].countP
        (fun ln => (lineYear ln).isSome) :=
  c5_post_counts [⟨some (.vInt 0), none, none, none, none⟩] [(1970, ⟨1, 0, 0, 0, 0⟩)] rfl
    [.malformed, .record ⟨some (.vStr "2021-07-01 12:28:00"), none, none⟩]

/-- C8: for a completed douyin pass, `save_to_csv` emits the exact header
`Year, Post Count, Total Likes, Total Collections, Total Comments,
Total Shares` and then exactly one row per year present in the table, in
strictly ascending year order; a year appears among the rows iff some
input record fell in it, so years with zero records never appear. -/
theorem c8_csv (l : List VideoRecord) (t : List (Int × VStats))
    (h : process_data l = .ok t) :
    save_to_csv t = videoCsvHeader ::
      ((t.map Prod.fst).insertionSort (fun a b => a ≤ b)).map (csvRow t) ∧
    ((t.map Prod.fst).insertionSort (fun a b => a ≤ b)).Sorted (fun a b => a < b) ∧
    (∀ y : Int, y ∈ (t.map Prod.fst).insertionSort (fun a b => a ≤ b) ↔
      ∃ r ∈ l, videoYearOf r = some y) := by
  obtain ⟨hall, ht⟩ := process_data_ok_inv l t h
  have hnodup : (t.map Prod.fst).Nodup := by
    rw [ht]
    exact nodup_keys_foldl_vStepOk l [] (by simp)
  refine ⟨rfl, ?_, ?_⟩
  · have hsorted : ((t.map Prod.fst).insertionSort (fun a b => a ≤ b)).Sorted
        (fun a b => a ≤ b) := List.sorted_insertionSort _ _
    have hnd : ((t.map Prod.fst).insertionSort (fun a b => a ≤ b)).Nodup :=
      ((List.perm_insertionSort _ _).nodup_iff).mpr hnodup
    exact (hsorted.and hnd).imp (fun hab => lt_of_le_of_ne hab.1 hab.2)
  · intro y
    have hmem : y ∈ (t.map Prod.fst).insertionSort (fun a b => a ≤ b) ↔
        y ∈ t.map Prod.fst := (List.perm_insertionSort _ _).mem_iff
    rw [hmem, ← alookup_isSome_iff_mem, ht, video_lookup_foldl]
    show (vCombine (alookup [] y) l y).isSome = true ↔ _
    have hnil : alookup ([] : List (Int × VStats)) y = none := rfl
    rw [hnil]
    constructor
    · intro hs
      by_cases hcnt : l.countP (fun r => videoYearOf r == some y) = 0
      · simp [vCombine, hcnt] at hs
      · have hpos : 0 < l.countP (fun r => videoYearOf r == some y) :=
          Nat.pos_of_ne_zero hcnt
        obtain ⟨r, hr, hb⟩ := List.countP_pos_iff.mp hpos
        exact ⟨r, hr, by simpa using hb⟩
    · intro ⟨r, hr, hb⟩
      have hpos : 0 < l.countP (fun r => videoYearOf r == some y) :=
        List.countP_pos_iff.mpr ⟨r, hr, by simpa using hb⟩
      have hcnt : l.countP (fun r => videoYearOf r == some y) ≠ 0 :=
        Nat.pos_iff_ne_zero.mp hpos
      simp [vCombine, hcnt]

/-- Witness for C8 on a one-record input producing the year 1970. -/
theorem c8_csv_witness :
    save_to_csv [((1970 : Int), ⟨1, 0, 0, 0, 0⟩)] = videoCsvHeader ::
      (([((1970 : Int), (⟨1, 0, 0, 0, 0⟩ : VStats))].map Prod.fst).insertionSort
        (fun a b => a ≤ b)).map (csvRow [((1970 : Int), ⟨1, 0, 0, 0, 0⟩)]) ∧
    (([((1970 : Int), (⟨1, 0, 0, 0, 0⟩ : VStats))].map Prod.fst).insertionSort
        (fun a b => a ≤ b)).Sorted (fun a b => a < b) :=
  have h := c8_csv [⟨some (.vInt 0), none, none, none, none⟩] [(1970, ⟨1, 0, 0, 0, 0⟩)] rfl
  ⟨h.1, h.2.1⟩

/-- C6: the per-record behaviour of the location extractor: a string
location holding the marker phrase followed by the recognised short name
北京 bumps the canonical counter 北京市 by exactly one and no other
counter; a captured token that is not a recognised short name bumps
nothing; and an absent, non-string, or marker-free location field bumps
nothing. -/
theorem c6_location (c : List (String × Nat)) :
    (alookup (ipStep c (.record ⟨none, none, some (.vStr "发布于 北京 today")⟩)) "北京市"
        = some (((alookup c "北京市").getD 0) + 1) ∧
      (∀ k : String, k ≠ "北京市" →
        alookup (ipStep c (.record ⟨none, none, some (.vStr "发布于 北京 today")⟩)) k
          = alookup c k)) ∧
    ipStep c (.record ⟨none, none, some (.vStr "发布于 Mars")⟩) = c ∧
    (∀ r : WeiboRecord, r.ip_location = none → ipStep c (.record r) = c) ∧
    (∀ (r : WeiboRecord) (v : JsonVal), r.ip_location = some v →
      (∀ s, v ≠ JsonVal.vStr s) → ipStep c (.record r) = c) ∧
    (∀ (r : WeiboRecord) (s : String), r.ip_location = some (.vStr s) →
      hasMarker s.toList = false → ipStep c (.record r) = c) := by
  have hstep : ipStep c (.record ⟨none, none, some (.vStr "发布于 北京 today")⟩)
      = aupdate c "北京市" 0 (fun n => n + 1) := rfl
  refine ⟨⟨?_, ?_⟩, rfl, ?_, ?_, ?_⟩
  · rw [hstep, alookup_aupdate_self]
  · intro k hk
    rw [hstep]
    exact alookup_aupdate_ne _ _ _ _ _ hk
  · intro r h
    obtain ⟨ca, rc, ip⟩ := r
    have h2 : ip = none := h
    subst h2
    rfl
  · intro r v h hns
    obtain ⟨ca, rc, ip⟩ := r
    have h2 : ip = some v := h
    subst h2
    cases v with
    | vNull => rfl
    | vBool b => rfl
    | vInt n => rfl
    | vStr s => exact absurd rfl (hns s)
    | vComposite ne => rfl
  · intro r s h hm
    obtain ⟨ca, rc, ip⟩ := r
    have h2 : ip = some (.vStr s) := h
    subst h2
    have hnone : searchCapture s.data = none := by
      have := searchCapture_eq_none_of_no_marker s.toList hm
      simpa [String.toList] using this
    simp [ipStep, hnone]

/-- Witness for C6 at the two concrete location strings. -/
theorem c6_location_witness :
    alookup (ipStep [] (.record ⟨none, none, some (.vStr "发布于 北京 today")⟩)) "北京市"
      = some (((alookup ([] : List (String × Nat)) "北京市").getD 0) + 1) ∧
    ipStep [] (.record ⟨none, none, some (.vStr "发布于 Mars")⟩) = [] :=
  ⟨(c6_location []).1.1, (c6_location []).2.1⟩

/-- C7: after processing any list of lines, every key of the region
counter is one of the 34 canonical display names — unmatched or
non-Chinese locations are never inserted — and the counter values sum to
at most the number of lines read. -/
theorem c7_region_invariant (l : List WeiboLine) :
    (∀ k ∈ (extract_ip_locations l).map Prod.fst, k ∈ canonicalRegionNames) ∧
    ((extract_ip_locations l).map (fun p => p.2)).sum ≤ l.length := by
  have h := ip_fold_invariant l [] (by intro k hk; cases hk)
  rw [extract_ip_locations]
  exact ⟨h.1, by simpa using h.2⟩

/-- Witness for C7 on a concrete one-line input. -/
theorem c7_region_invariant_witness :
    ("北京市" ∈ (extract_ip_locations
        [.record ⟨none, none, some (.vStr "发布于 北京")⟩]).map Prod.fst →
      "北京市" ∈ canonicalRegionNames) ∧
    ((extract_ip_locations
        [.record ⟨none, none, some (.vStr "发布于 北京")⟩]).map (fun p => p.2)).sum ≤ 1 :=
  ⟨fun hk => (c7_region_invariant [.record ⟨none, none, some (.vStr "发布于 北京")⟩]).1 _ hk,
   (c7_region_invariant [.record ⟨none, none, some (.vStr "发布于 北京")⟩]).2⟩

/-- C10: the canonical region table maps the short name 河南 to the
display name 河南 itself, while every other mainland short name maps to a
display name ending in 省, 市, or 自治区; consequently a record located
in 河南 is counted under the key 河南, and the key 河南省 is untouched. -/
theorem c10_henan (c : List (String × Nat)) :
    (alookup CHINA_PROVINCES_MAP "河南").getD "" = "河南" ∧
    (∀ k ∈ mainlandShortNames, k ≠ "河南" →
      (endsWithChars "省".toList ((alookup CHINA_PROVINCES_MAP k).getD "").toList = true
       ∨ endsWithChars "市".toList ((alookup CHINA_PROVINCES_MAP k).getD "").toList = true
       ∨ endsWithChars "自治区".toList ((alookup CHINA_PROVINCES_MAP k).getD "").toList = true)) ∧
    alookup (ipStep c (.record ⟨none, none, some (.vStr "发布于 河南")⟩)) "河南"
      = some (((alookup c "河南").getD 0) + 1) ∧
    alookup (ipStep c (.record ⟨none, none, some (.vStr "发布于 河南")⟩)) "河南省"
      = alookup c "河南省" := by
  have hstep : ipStep c (.record ⟨none, none, some (.vStr "发布于 河南")⟩)
      = aupdate c "河南" 0 (fun n => n + 1) := rfl
  refine ⟨rfl, by decide, ?_, ?_⟩
  · rw [hstep, alookup_aupdate_self]
  · rw [hstep]
    exact alookup_aupdate_ne _ _ _ _ _ (by decide)

/-- Witness for C10 on the empty counter. -/
theorem c10_henan_witness :
    alookup (ipStep [] (.record ⟨none, none, some (.vStr "发布于 河南")⟩)) "河南"
      = some (((alookup ([] : List (String × Nat)) "河南").getD 0) + 1) ∧
    alookup (ipStep [] (.record ⟨none, none, some (.vStr "发布于 河南")⟩)) "河南省"
      = alookup ([] : List (String × Nat)) "河南省" :=
  ⟨(c10_henan []).2.2.1, (c10_henan []).2.2.2⟩
